import Mathlib

/-!
Verification of the cursor2md extraction-filter-render pipeline.

The Go sources contain three revisions of the tool:
* `src/cursor2md.go` (identical to the first file in `src/unnamed/part_000`,
  lines 1-589): the original single-command exporter (`processDatabase`,
  `hasValidContent` with the empty-text check, `convertToMarkdown`).
* `src/unnamed/part_001`: an intermediate revision.
* the second file in `src/unnamed/part_000` (lines 590-1560): the latest
  revision (v0.0.2) with `ls`/`export` subcommands, JSON output, sorting,
  numbered file names.  This is the revision the claims' line numbers
  reference, and it is the one embedded here; where the original revision
  differs (its `hasValidContent`, its `processDatabase`) both variants are
  embedded under distinct names.

Modelling conventions:
* Go strings are modelled as `List Char` (`GoStr`); all nine sanitised
  characters and all markdown fragments are ASCII or fixed UTF-8 literals,
  so rune-level lists are a faithful model.
* Go `time.Time` values produced by `time.Unix(ms/1000, 0)` are modelled by
  their epoch second (`Int`); `Before`/`After` are `<`/`>` on seconds.
  Optional CLI time bounds are `Option Int`: `none` models the zero
  `time.Time` (`IsZero`), which is how an unset flag is represented by
  `parseTimeArg("")`.  Calendar formatting (`Format`) is modelled with the
  standard civil-from-days conversion in UTC (the tool uses the local zone;
  the zone offset is irrelevant to every property proved here).
* The SQLite store is a list of `(key, value)` rows; a stored value is
  `RawValue`: either bytes that `json.Unmarshal` decodes into a given
  `ChatRecord`, the literal `"[]"` (which both trips the sentinel skip and
  would fail to unmarshal into a struct), or otherwise-malformed bytes.
* `ioutil.WriteFile` either fully succeeds or fails, per the stated
  filesystem contract; a `writeOk : GoStr → Bool` oracle selects which
  target paths succeed, and the directory contents are an association list.
-/

/-- Go strings, modelled as rune lists. -/
abbrev GoStr := List Char

/-- Embed a Lean string literal as a Go string. -/
def gs (s : String) : GoStr := s.toList

/-- `strings.HasPrefix s pre`. -/
def strStarts (s pre : GoStr) : Bool := List.isPrefixOf pre s

/-- `strings.TrimPrefix s pre`: drop `pre` when it leads `s`, else `s`. -/
def strTrimPre (s pre : GoStr) : GoStr :=
  if strStarts s pre then s.drop pre.length else s

/-- `unicode.IsSpace`, the character class used by `strings.TrimSpace`. -/
def isGoSpace (c : Char) : Bool :=
  c = ' ' || c = '\t' || c = '\n' || c = '\x0b' || c = '\x0c' || c = '\r' ||
  c.toNat = 0x85 || c.toNat = 0xa0 || c.toNat = 0x1680 ||
  (0x2000 ≤ c.toNat && c.toNat ≤ 0x200a) ||
  c.toNat = 0x2028 || c.toNat = 0x2029 || c.toNat = 0x202f ||
  c.toNat = 0x205f || c.toNat = 0x3000

/-- `strings.TrimSpace`. -/
def trimSpace (s : GoStr) : GoStr :=
  ((s.dropWhile isGoSpace).reverse.dropWhile isGoSpace).reverse

/-- `filepath.Base` (POSIX separators): last element of the path after
dropping trailing separators; `"."` for the empty path, `"/"` when the path
is all separators. -/
def baseNameGo (path : GoStr) : GoStr :=
  if path = [] then gs "."
  else
    let trimmed := (path.reverse.dropWhile (· = '/')).reverse
    if trimmed = [] then gs "/"
    else (trimmed.reverse.takeWhile (· ≠ '/')).reverse

/-- `filepath.Join dir file`, modelled as separator concatenation. -/
def joinPath (dir file : GoStr) : GoStr := dir ++ gs "/" ++ file

/-! ## Decimal digits: `fmt.Sprintf("%d", n)` and `"%0*d"`.

Defined with explicit fuel so that the kernel can evaluate them on concrete
inputs; `decDigits_eq` recovers the natural recurrence. -/

/-- Fuel-driven most-significant-first decimal digits of a natural. -/
def decDigitsAux : Nat → Nat → List Nat
  | 0, _ => []
  | fuel + 1, n => if n < 10 then [n] else decDigitsAux fuel (n / 10) ++ [n % 10]

/-- Decimal digits of `n`, most significant first (`[0]` for `0`),
the digit list of `fmt.Sprintf("%d", n)`. -/
def decDigits (n : Nat) : List Nat := decDigitsAux (n + 1) n

/-- Numeric value of a most-significant-first digit list. -/
def ofDigits (ds : List Nat) : Nat := ds.foldl (fun a d => 10 * a + d) 0

/-- `fmt.Sprintf("%0*d", w, n)` for naturals, as a digit list: left-pad the
decimal digits with zeros to width at least `w`. -/
def sprintfPad0 (w n : Nat) : List Nat :=
  List.replicate (w - (decDigits n).length) 0 ++ decDigits n

/-- Render a digit list as characters. -/
def digitsStr (ds : List Nat) : GoStr := ds.map Nat.digitChar

/-! ## Calendar formatting (`time.Format`), modelled in UTC. -/

/-- Civil date from days since the Unix epoch (standard era-based
conversion): returns `(year, month, day)`. -/
def civilFromDays (z0 : Int) : Int × Int × Int :=
  let z := z0 + 719468
  let era := Int.fdiv z 146097
  let doe := z - era * 146097
  let yoe := Int.fdiv (doe - Int.fdiv doe 1460 + Int.fdiv doe 36524 - Int.fdiv doe 146096) 365
  let y := yoe + era * 400
  let doy := doe - (365 * yoe + Int.fdiv yoe 4 - Int.fdiv yoe 100)
  let mp := Int.fdiv (5 * doy + 2) 153
  let d := doy - Int.fdiv (153 * mp + 2) 5 + 1
  let m := mp + (if mp < 10 then 3 else -9)
  (y + (if m ≤ 2 then 1 else 0), m, d)

/-- `(year, month, day, hour, minute, second)` of an epoch second. -/
def timeParts (sec : Int) : Int × Int × Int × Int × Int × Int :=
  let days := Int.fdiv sec 86400
  let rem := sec - days * 86400
  let (y, m, d) := civilFromDays days
  (y, m, d, Int.fdiv rem 3600, Int.fdiv (Int.emod rem 3600) 60, Int.emod rem 60)

/-- Zero-pad the decimal form of a component to width `w`
(components of in-range instants are non-negative). -/
def padNum (w : Nat) (n : Int) : GoStr :=
  digitsStr (sprintfPad0 w n.natAbs)

/-- `t.Format("2006-01-02 15:04:05")` of an epoch second. -/
def formatDateTime (sec : Int) : GoStr :=
  let (y, mo, d, h, mi, s) := timeParts sec
  padNum 4 y ++ gs "-" ++ padNum 2 mo ++ gs "-" ++ padNum 2 d ++ gs " " ++
    padNum 2 h ++ gs ":" ++ padNum 2 mi ++ gs ":" ++ padNum 2 s

/-- `t.Format("2006-01-02")` of an epoch second. -/
def formatDate (sec : Int) : GoStr :=
  let (y, mo, d, _, _, _) := timeParts sec
  padNum 4 y ++ gs "-" ++ padNum 2 mo ++ gs "-" ++ padNum 2 d

/-- `t.Format("20060102-150405")` of an epoch second (the collision
timestamp suffix). -/
def formatCompact (sec : Int) : GoStr :=
  let (y, mo, d, h, mi, s) := timeParts sec
  padNum 4 y ++ padNum 2 mo ++ padNum 2 d ++ gs "-" ++
    padNum 2 h ++ padNum 2 mi ++ padNum 2 s

/-- `time.Unix(ms/1000, 0)` as an epoch second; Go's `int64` division
truncates toward zero. -/
def unixSec (ms : Int) : Int := Int.tdiv ms 1000

/-! ## The decoded data model (`ChatRecord` and friends). -/

/-- A `uri` object carrying a `path`. -/
structure Uri where
  path : GoStr
deriving DecidableEq

/-- One element of a `fileSelections` array. -/
structure FileSelection where
  uri : Uri
deriving DecidableEq

/-- One element of a `selections` array: quoted text plus an optional file. -/
structure Selection where
  text : GoStr
  uri : Uri
deriving DecidableEq

/-- The `context` object of a message. -/
structure MsgContext where
  fileSelections : List FileSelection
  selections : List Selection
deriving DecidableEq

/-- The `timingInfo` object of a message. -/
structure TimingInfo where
  clientStartTime : Int
  clientEndTime : Int
deriving DecidableEq

/-- One element of a `codeBlocks` array. -/
structure CodeBlock where
  uri : Uri
  content : GoStr
  languageId : GoStr
deriving DecidableEq

/-- `Message`: one turn of the conversation. -/
structure Message where
  type : Int
  text : GoStr
  context : MsgContext
  timingInfo : TimingInfo
  codeBlocks : List CodeBlock
deriving DecidableEq

/-- The conversation-level `context` object. -/
structure RecordContext where
  fileSelections : List FileSelection
deriving DecidableEq

/-- `ChatRecord`: the decoded payload.  `endedAt` has no JSON tag in the
source but is an exported field, so `json.Unmarshal` may still populate it
by field name; every field here is whatever the decoder produced. -/
structure ChatRecord where
  conversation : List Message
  name : GoStr
  status : GoStr
  context : RecordContext
  createdAt : Int
  endedAt : Int
deriving DecidableEq

/-- CLI configuration (`Config` of the latest revision).  The four time
bounds are `none` when the corresponding flag was not given. -/
structure Config where
  dbPath : GoStr
  outputDir : GoStr
  startAfter : Option Int
  startBefore : Option Int
  endAfter : Option Int
  endBefore : Option Int
  hasTimeFilter : Bool
  jsonOutput : Bool
  sortDesc : Bool
  byName : Bool
deriving DecidableEq

/-- `SessionInfo`: listing projection of one session. -/
structure SessionInfo where
  hash : GoStr
  title : GoStr
  startTime : Int
  endTime : Int
deriving DecidableEq

/-- `ExportedSession`: export-report projection of one session;
`outputPath` stays empty until a successful write fills it. -/
structure ExportedSession where
  hash : GoStr
  title : GoStr
  outputPath : GoStr
  startTime : Int
  endTime : Int
deriving DecidableEq

/-- `SessionListResponse`: the `ls -json` payload. -/
structure SessionListResponse where
  sessions : List SessionInfo
  total : Nat
  success : Bool
deriving DecidableEq

/-- `ExportResponse`: the `export -json` payload. -/
structure ExportResponse where
  success : Bool
  exported : List ExportedSession
  total : Nat
deriving DecidableEq

/-! ## Stored rows and decoding. -/

/-- A stored value.  `record r` stands for JSON bytes that
`json.Unmarshal` decodes into exactly `r`; `emptyArrayLit` is the literal
`"[]"` (a JSON array cannot be unmarshalled into the `ChatRecord` struct,
so it would also fail to decode); `malformed` is any other undecodable
value. -/
inductive RawValue where
  | record (r : ChatRecord)
  | emptyArrayLit
  | malformed
deriving DecidableEq

/-- Whether the stored value is the literal `"[]"` (the `value == "[]"`
sentinel comparison). -/
def RawValue.isEmptyArrayLit : RawValue → Bool
  | .emptyArrayLit => true
  | _ => false

/-- `json.Unmarshal` into a `ChatRecord`, as a partial decode. -/
def decodeRecord : RawValue → Option ChatRecord
  | .record r => some r
  | .emptyArrayLit => none
  | .malformed => none

/-- The store: the `cursorDiskKV` rows in cursor order. -/
abbrev Store := List (GoStr × RawValue)

/-- `SELECT value FROM cursorDiskKV WHERE key = ?` (`QueryRow` + `Scan`):
first row with the given key, `none` for `sql.ErrNoRows`. -/
def storeLookup (store : Store) (key : GoStr) : Option RawValue :=
  (store.find? (fun row => row.1 = key)).map (·.2)

/-! ## Validity filter. -/

/-- `hasValidContent` of the latest revision
(`src/unnamed/part_000` lines 694-703 and `src/unnamed/part_001`
lines 103-111): reject a `composerData:`-prefixed name and an empty
conversation, nothing else. -/
def hasValidContent (record : ChatRecord) : Bool :=
  if strStarts record.name (gs "composerData:") then false
  else if record.conversation.length = 0 then false
  else true

/-- `hasValidContent` of the original revision (`src/cursor2md.go`
lines 303-324, identical in `src/unnamed/part_000` lines 568-589):
additionally requires some turn with non-empty text. -/
def hasValidContentV1 (record : ChatRecord) : Bool :=
  if strStarts record.name (gs "composerData:") then false
  else if record.conversation.length = 0 then false
  else record.conversation.any (fun msg => msg.text ≠ [])

/-! ## End-time recomputation and the time-range filter. -/

/-- The `if len(record.Conversation) > 0 { record.EndedAt = last turn's
ClientEndTime }` statement that precedes every use of `EndedAt`. -/
def withRecomputedEnd (record : ChatRecord) : ChatRecord :=
  match record.conversation.getLast? with
  | some last => { record with endedAt := last.timingInfo.clientEndTime }
  | none => record

/-- `!bound.IsZero() && cmp` for an optional bound. -/
def boundSet (bound : Option Int) (cmp : Int → Bool) : Bool :=
  match bound with
  | none => false
  | some t => cmp t

/-- `Config.isInTimeRange` (`src/unnamed/part_000` lines 1079-1109).  The
record is passed by value, so the `EndedAt` recomputation is local.  Go
computes `endTime` only under `EndedAt > 0`, and only reads it there; the
unconditional `unixSec` here is read under the same guard. -/
def Config.isInTimeRange (c : Config) (record : ChatRecord) : Bool :=
  if c.hasTimeFilter = false then true
  else
    let startTime := unixSec record.createdAt
    let endedAt :=
      match record.conversation.getLast? with
      | some last => last.timingInfo.clientEndTime
      | none => record.endedAt
    let endTime := unixSec endedAt
    if boundSet c.startAfter (fun t => startTime < t) then false
    else if boundSet c.startBefore (fun t => t < startTime) then false
    else if endedAt > 0 && boundSet c.endAfter (fun t => endTime < t) then false
    else if endedAt > 0 && boundSet c.endBefore (fun t => t < endTime) then false
    else true

/-! ## Markdown renderer. -/

/-- Render a `fileSelections` list as tab-joined markdown links
`[basename](path)`. -/
def mdLinks (files : List FileSelection) : GoStr :=
  List.intercalate (gs "\t")
    (files.map (fun f =>
      gs "[" ++ baseNameGo f.uri.path ++ gs "](" ++ f.uri.path ++ gs ")"))

/-- The body emitted for one message of the conversation loop of
`convertToMarkdown`: type 1 is a user turn, type 2 an assistant turn, any
other type emits nothing. -/
def renderMessage (msg : Message) : GoStr :=
  if msg.type = 1 then
    gs "## User\n\n" ++
    (if msg.context.fileSelections.length > 0 then
        gs "引用的文件:\t" ++ mdLinks msg.context.fileSelections ++ gs "\n\n"
      else []) ++
    (if msg.context.selections.length > 0 then
        gs "引用的代码片段:\n" ++
          (msg.context.selections.map (fun sel =>
            (if sel.uri.path ≠ [] then
                gs "From [" ++ baseNameGo sel.uri.path ++ gs "](" ++
                  sel.uri.path ++ gs "):\n"
              else []) ++ sel.text ++ gs "\n")).flatten
      else []) ++
    gs "> " ++ msg.text ++ gs "\n\n"
  else if msg.type = 2 then
    gs "## Cursor\n\n" ++ msg.text ++ gs "\n\n" ++
    (msg.codeBlocks.map (fun block =>
      if block.content ≠ [] then
        (if block.uri.path ≠ [] then
            gs "```" ++ block.languageId ++ gs ":[" ++
              baseNameGo block.uri.path ++ gs "](" ++ block.uri.path ++ gs ")\n"
          else gs "```" ++ block.languageId ++ gs "\n") ++
        block.content ++ gs "\n" ++ gs "```\n\n"
      else [])).flatten
  else []

/-- `convertToMarkdown` (`src/unnamed/part_000` lines 1112-1184, identical
logic in the other revisions). -/
def convertToMarkdown (record : ChatRecord) : GoStr :=
  let endedAt :=
    match record.conversation.getLast? with
    | some last => last.timingInfo.clientEndTime
    | none => record.endedAt
  gs "# " ++ record.name ++ gs "\n\n" ++
  gs "## 会话信息\n\n" ++
  gs "- 开始时间: \t" ++ formatDateTime (unixSec record.createdAt) ++ gs "\n" ++
  (if endedAt > 0 then
      gs "- 结束时间:\t" ++ formatDateTime (unixSec endedAt) ++ gs "\n"
    else []) ++
  (if record.context.fileSelections.length > 0 then
      gs "- 相关文件:\t" ++ mdLinks record.context.fileSelections ++ gs "\n"
    else []) ++
  gs "\n" ++
  (record.conversation.map renderMessage).flatten

/-! ## File-naming policy. -/

/-- The nine characters the `strings.NewReplacer` call maps to `'_'`. -/
def replaceUnsafeChar (c : Char) : Char :=
  if c = '<' then '_'
  else if c = '>' then '_'
  else if c = ':' then '_'
  else if c = '\"' then '_'
  else if c = '/' then '_'
  else if c = '\\' then '_'
  else if c = '|' then '_'
  else if c = '?' then '_'
  else if c = '*' then '_'
  else c

/-- The `strings.NewReplacer(...).Replace(name)` sanitisation (all nine
patterns are single runes replaced by `'_'`, so the one-pass replacer is a
character map). -/
def replaceUnsafe (name : GoStr) : GoStr := name.map replaceUnsafeChar

/-- `generateNumberedFileName` (`src/unnamed/part_000` lines 883-920):
zero-pad `index+1` to the digit count of `totalSessions` (both branches of
the `descending` switch compute `index + 1`), fall back to `"untitled"`
for a blank name, sanitise, and join as `"<number>-<name>.md"`. -/
def generateNumberedFileName (totalSessions index : Nat) (descending : Bool)
    (name : GoStr) : GoStr :=
  let digits := (decDigits totalSessions).length
  let number := if descending then index + 1 else index + 1
  let numberStr := digitsStr (sprintfPad0 digits number)
  let name1 := if trimSpace name = [] then gs "untitled" else name
  let safeName := replaceUnsafe name1
  numberStr ++ gs "-" ++ safeName ++ gs ".md"

/-- The by-title file name used by `exportSessions` (lines 1017-1036):
sanitise first, then apply the `untitled` fallback, then `".md"`. -/
def byTitleFileName (name : GoStr) : GoStr :=
  let safeName0 := replaceUnsafe name
  let safeName := if trimSpace safeName0 = [] then gs "untitled" else safeName0
  safeName ++ gs ".md"

/-! ## Session catalog (`listSessions`). -/

/-- The per-row body of the `listSessions` scan loop
(`src/unnamed/part_000` lines 803-831): sentinel skip, decode, validity
filter, `EndedAt` recomputation, then the `SessionInfo` projection.
`none` models `continue`. -/
def sessionFromEntry (key : GoStr) (v : RawValue) : Option SessionInfo :=
  if v.isEmptyArrayLit = true ∨ key = gs "inlineDiffsData" then none
  else
    match decodeRecord v with
    | none => none
    | some record0 =>
      if hasValidContent record0 = false then none
      else
        let record := withRecomputedEnd record0
        some { hash := strTrimPre key (gs "composerData:")
             , title := record.name
             , startTime := unixSec record.createdAt
             , endTime := unixSec record.endedAt }

/-- The accumulated `sessions` slice of `listSessions`, in scan order. -/
def collectSessions (store : Store) : List SessionInfo :=
  store.filterMap (fun row => sessionFromEntry row.1 row.2)

/-- Ascending comparison used by the `sort.Slice` call of `listSessions`
(`sessions[i].StartTime.Before(sessions[j].StartTime)`). -/
def sessionStartLE (a b : SessionInfo) : Prop := a.startTime ≤ b.startTime

instance : DecidableRel sessionStartLE := fun a b => Int.decLe _ _

instance : IsTotal SessionInfo sessionStartLE :=
  ⟨fun a b => Int.le_total a.startTime b.startTime⟩

instance : IsTrans SessionInfo sessionStartLE :=
  ⟨fun _ _ _ hab hbc => le_trans hab hbc⟩

/-- `ls -json` (`src/unnamed/part_000` lines 833-845): the response is
built from the accumulated slice as scanned — the `sort.Slice` call at
lines 866-868 only runs on the text-table path, after this branch has
already returned. -/
def listSessionsJson (store : Store) : SessionListResponse :=
  let sessions := collectSessions store
  { sessions := sessions, total := sessions.length, success := true }

/-- The text-table path of `listSessions` (lines 847-879): sorts the
accumulated slice ascending by start time (`sort.Slice` is unstable;
any sort by the same key models it), prints one row per session, and a
trailing `len(sessions)` count.  Returns (rows printed, printed count). -/
def listSessionsTable (store : Store) : List SessionInfo × Nat :=
  let sessions := collectSessions store
  let sorted := List.insertionSort sessionStartLE sessions
  (sorted, sorted.length)

/-! ## Export catalog and batch export (`exportSessions`). -/

/-- The per-row body of the first `exportSessions` scan loop
(`src/unnamed/part_000` lines 957-989): sentinel skip, decode, validity
filter, `EndedAt` recomputation, time-range filter, then the
`ExportedSession` projection with an empty `OutputPath`. -/
def exportEntry (c : Config) (key : GoStr) (v : RawValue) :
    Option ExportedSession :=
  if v.isEmptyArrayLit = true ∨ key = gs "inlineDiffsData" then none
  else
    match decodeRecord v with
    | none => none
    | some record0 =>
      if hasValidContent record0 = false then none
      else
        let record := withRecomputedEnd record0
        if c.isInTimeRange record = false then none
        else
          some { hash := strTrimPre key (gs "composerData:")
               , title := record.name
               , outputPath := []
               , startTime := unixSec record.createdAt
               , endTime := unixSec record.endedAt }

/-- The accumulated `exportedSessions` slice, in scan order. -/
def collectExportSessions (c : Config) (store : Store) : List ExportedSession :=
  store.filterMap (fun row => exportEntry c row.1 row.2)

/-- Comparison used by `sortExportedSessions`: strict `After` for
descending, strict `Before` for ascending; modelled by the matching
non-strict total preorders. -/
def exportOrder (descending : Bool) (a b : ExportedSession) : Prop :=
  if descending then b.startTime ≤ a.startTime else a.startTime ≤ b.startTime

instance : ∀ d, DecidableRel (exportOrder d) := by
  intro d a b; unfold exportOrder; split <;> exact Int.decLe _ _

instance (d : Bool) : IsTotal ExportedSession (exportOrder d) :=
  ⟨by intro a b; unfold exportOrder; split <;> exact Int.le_total _ _⟩

instance (d : Bool) : IsTrans ExportedSession (exportOrder d) :=
  ⟨by intro _a _b _c hab hbc; unfold exportOrder at *; split at hab <;>
      simp_all <;> omega⟩

/-- `sortExportedSessions` (`src/unnamed/part_000` lines 1327-1336). -/
def sortExportedSessions (sessions : List ExportedSession) (descending : Bool) :
    List ExportedSession :=
  List.insertionSort (exportOrder descending) sessions

/-- Output-directory contents: written path ↦ written bytes, newest first. -/
abbrev FS := List (GoStr × GoStr)

/-- `os.Stat`-style existence check plus content lookup. -/
def FS.lookup (fs : FS) (path : GoStr) : Option GoStr :=
  (fs.find? (fun f => f.1 = path)).map (·.2)

/-- `ioutil.WriteFile` on success: the path now holds the new content. -/
def FS.write (fs : FS) (path content : GoStr) : FS := (path, content) :: fs

/-- One iteration of the second `exportSessions` loop
(`src/unnamed/part_000` lines 997-1051) for the item at zero-based
position `i` of the sorted slice: re-fetch the full payload by
`"composerData:" + hash`, re-decode, render, name (numbered or by-title
with the existing-file timestamp fallback), write, and on success record
the realized path.  Failures (`continue`) leave the item and the
directory untouched. -/
def exportWriteItem (c : Config) (store : Store) (totalSessions : Nat)
    (writeOk : GoStr → Bool) (i : Nat) (session : ExportedSession)
    (fs : FS) : ExportedSession × FS :=
  let key := gs "composerData:" ++ session.hash
  match storeLookup store key with
  | none => (session, fs)
  | some v =>
    match decodeRecord v with
    | none => (session, fs)
    | some record =>
      let mdContent := convertToMarkdown record
      let mdFile :=
        if c.byName = true then
          joinPath c.outputDir
            (generateNumberedFileName totalSessions i c.sortDesc record.name)
        else
          let safeName0 := replaceUnsafe record.name
          let safeName :=
            if trimSpace safeName0 = [] then gs "untitled" else safeName0
          let baseFile := joinPath c.outputDir (safeName ++ gs ".md")
          if (fs.lookup baseFile).isSome = true then
            joinPath c.outputDir
              (safeName ++ gs "-" ++ formatCompact session.startTime ++ gs ".md")
          else baseFile
      if writeOk mdFile = true then
        ({ session with outputPath := mdFile }, fs.write mdFile mdContent)
      else (session, fs)

/-- The second `exportSessions` loop from position `i` on, threading the
output directory; the in-place `exportedSessions[i].OutputPath` updates
become the returned list. -/
def exportWriteGo (c : Config) (store : Store) (totalSessions : Nat)
    (writeOk : GoStr → Bool) :
    Nat → List ExportedSession → FS → List ExportedSession × FS
  | _, [], fs => ([], fs)
  | i, session :: rest, fs =>
    let (session1, fs1) := exportWriteItem c store totalSessions writeOk i session fs
    let (rest1, fs2) := exportWriteGo c store totalSessions writeOk (i + 1) rest fs1
    (session1 :: rest1, fs2)

/-- `exportSessions` (`src/unnamed/part_000` lines 923-1076) after the
fatal-error preamble: scan and collect, sort, write each item, and build
the `ExportResponse` (the same slice and `Success: true` whether reported
as JSON or as text). -/
def exportSessionsRun (c : Config) (store : Store) (writeOk : GoStr → Bool)
    (fs0 : FS) : ExportResponse × FS :=
  let collected := collectExportSessions c store
  let sorted := sortExportedSessions collected c.sortDesc
  let (final, fs1) := exportWriteGo c store sorted.length writeOk 0 sorted fs0
  ({ success := true, exported := final, total := final.length }, fs1)

/-! ## The original revision's `processDatabase` row body. -/

/-- The per-row body of `processDatabase` (`src/cursor2md.go` lines
117-181, with the `config.isInTimeRange` step of `src/unnamed/part_000`
lines 259-263 omitted as in `src/cursor2md.go`): sentinel skip, decode,
default an empty `Name` to the store key, validity filter (original
variant), render, and write to `markdown_output/<Name>.md`.  Returns the
(path, content) pair of the write, `none` for `continue`. -/
def processDatabaseEntry (key : GoStr) (v : RawValue) : Option (GoStr × GoStr) :=
  if v.isEmptyArrayLit = true ∨ key = gs "inlineDiffsData" then none
  else
    match decodeRecord v with
    | none => none
    | some record0 =>
      let record := if record0.name = [] then { record0 with name := key } else record0
      if hasValidContentV1 record = false then none
      else
        some (joinPath (gs "markdown_output") (record.name ++ gs ".md"),
              convertToMarkdown record)

/-! ## Lemmas about decimal digits. -/

theorem decDigitsAux_irrel (n : Nat) : ∀ f g, n < f → n < g →
    decDigitsAux f n = decDigitsAux g n := by
  induction n using Nat.strong_induction_on with
  | _ n ih =>
    intro f g hf hg
    match f, g with
    | f' + 1, g' + 1 =>
      simp only [decDigitsAux]
      by_cases h10 : n < 10
      · simp [h10]
      · simp only [h10, if_false]
        have hlt : n / 10 < n := Nat.div_lt_self (by omega) (by omega)
        rw [ih (n / 10) hlt (f') (g') (by omega) (by omega)]

theorem decDigits_eq (n : Nat) :
    decDigits n = if n < 10 then [n] else decDigits (n / 10) ++ [n % 10] := by
  unfold decDigits
  show decDigitsAux (n + 1) n = _
  simp only [decDigitsAux]
  by_cases h10 : n < 10
  · simp [h10]
  · simp only [h10, if_false]
    have hlt : n / 10 < n := Nat.div_lt_self (by omega) (by omega)
    rw [decDigitsAux_irrel (n / 10) n (n / 10 + 1) (by omega) (by omega)]
    simp only [decDigitsAux]

theorem decDigits_length_pos (n : Nat) : 0 < (decDigits n).length := by
  rw [decDigits_eq]
  by_cases h10 : n < 10 <;> simp [h10]

theorem decDigits_length_mono : ∀ n m, m ≤ n →
    (decDigits m).length ≤ (decDigits n).length := by
  intro n
  induction n using Nat.strong_induction_on with
  | _ n ih =>
    intro m hmn
    by_cases hm : m < 10
    · rw [decDigits_eq m]
      simp only [hm, if_true]
      have := decDigits_length_pos n
      simp; omega
    · have hn : ¬ n < 10 := by omega
      rw [decDigits_eq m, decDigits_eq n]
      simp only [hm, hn, if_false, List.length_append, List.length_cons,
        List.length_nil]
      have hdiv : m / 10 ≤ n / 10 := Nat.div_le_div_right hmn
      have hlt : n / 10 < n := Nat.div_lt_self (by omega) (by omega)
      have := ih (n / 10) hlt (m / 10) hdiv
      omega

theorem ofDigits_append_single (ds : List Nat) (d : Nat) :
    ofDigits (ds ++ [d]) = 10 * ofDigits ds + d := by
  unfold ofDigits
  rw [List.foldl_append]
  rfl

theorem ofDigits_decDigits (n : Nat) : ofDigits (decDigits n) = n := by
  induction n using Nat.strong_induction_on with
  | _ n ih =>
    rw [decDigits_eq]
    by_cases h10 : n < 10
    · simp [h10, ofDigits]
    · simp only [h10, if_false]
      rw [ofDigits_append_single]
      have hlt : n / 10 < n := Nat.div_lt_self (by omega) (by omega)
      rw [ih (n / 10) hlt]
      omega

theorem ofDigits_replicate_zero (k : Nat) (ds : List Nat) :
    ofDigits (List.replicate k 0 ++ ds) = ofDigits ds := by
  induction k with
  | zero => rfl
  | succ k ihk =>
    rw [List.replicate_succ, List.cons_append]
    unfold ofDigits at *
    simpa using ihk

theorem sprintfPad0_value (w n : Nat) : ofDigits (sprintfPad0 w n) = n := by
  unfold sprintfPad0
  rw [ofDigits_replicate_zero, ofDigits_decDigits]

theorem sprintfPad0_length (w n : Nat) (h : (decDigits n).length ≤ w) :
    (sprintfPad0 w n).length = w := by
  unfold sprintfPad0
  simp only [List.length_append, List.length_replicate]
  omega

/-! ## Lemmas about whitespace trimming. -/

theorem trimSpace_all_space {s : GoStr} (h : ∀ c ∈ s, isGoSpace c = true) :
    trimSpace s = [] := by
  unfold trimSpace
  have h1 : s.dropWhile isGoSpace = [] := List.dropWhile_eq_nil_iff.mpr h
  rw [h1]
  simp

/-! ## Shared concrete fixtures. -/

/-- A user turn with the given text and end-timing milliseconds. -/
def mkUserMsg (txt : GoStr) (endMs : Int) : Message :=
  { type := 1, text := txt,
    context := { fileSelections := [], selections := [] },
    timingInfo := { clientStartTime := 0, clientEndTime := endMs },
    codeBlocks := [] }

/-- A minimal record with the given name, turns and creation time. -/
def mkRecord (nm : GoStr) (conv : List Message) (created : Int) : ChatRecord :=
  { conversation := conv, name := nm, status := [],
    context := { fileSelections := [] }, createdAt := created, endedAt := 0 }

/-- A record whose turns all carry empty text. -/
def emptyTextRecord : ChatRecord := mkRecord (gs "t") [mkUserMsg [] 0] 0

/-- A record with no turns at all. -/
def noTurnRecord : ChatRecord := mkRecord (gs "t") [] 0

/-- A decodable record whose payload `name` is absent (empty). -/
def emptyNameRecord : ChatRecord := mkRecord [] [mkUserMsg (gs "hi") 5000] 2000

/-- A `Config` with no filters, JSON output, descending batch export. -/
def plainConfig : Config :=
  { dbPath := [], outputDir := gs "out", startAfter := none,
    startBefore := none, endAfter := none, endBefore := none,
    hasTimeFilter := false, jsonOutput := true, sortDesc := true,
    byName := false }

/-! ## C1 — validity filter on zero turns / all-empty turn texts. -/

/-- C1: for every Conversation the validity filter returns `false` when
there are zero turns — true in both revisions of `hasValidContent` — and
the claim's second half, rejection of a conversation whose every turn has
empty text, holds of the original `hasValidContentV1`
(`src/cursor2md.go` lines 303-324) but fails on the latest revision
(`src/unnamed/part_000` lines 694-703), which dropped the text check and
accepts `emptyTextRecord`: the code contradicts the specified filter. -/
theorem c1_empty_filter_divergence :
    (∀ r : ChatRecord, r.conversation = [] →
      hasValidContent r = false ∧ hasValidContentV1 r = false) ∧
    hasValidContentV1 emptyTextRecord = false ∧
    hasValidContent emptyTextRecord = true := by
  refine ⟨?_, by decide, by decide⟩
  intro r hconv
  unfold hasValidContent hasValidContentV1
  rw [hconv]
  simp

/-- C1 witness: the zero-turn half of `c1_empty_filter_divergence`
instantiated at `noTurnRecord`. -/
theorem c1_empty_filter_divergence_witness :
    noTurnRecord.conversation = [] ∧ hasValidContent noTurnRecord = false :=
  ⟨by decide, (c1_empty_filter_divergence.1 noTurnRecord (by decide)).1⟩

/-! ## C2 — defaulting an absent title to the store key. -/

/-- C2 counterexample: in the latest revision's `listSessions` row body,
a decoded payload with an absent (empty) `name` keeps the empty title —
it is not set to the store key `"composerData:abc"` (nor to anything
non-empty) before the listing uses it. -/
theorem c2_counterexample :
    (sessionFromEntry (gs "composerData:abc") (.record emptyNameRecord)).map
        (fun s => s.title) = some [] ∧
    gs "composerData:abc" ≠ ([] : GoStr) := by
  constructor
  · decide
  · decide

/-- Projections of `withRecomputedEnd` other than `endedAt` are untouched. -/
theorem withRecomputedEnd_name (r : ChatRecord) :
    (withRecomputedEnd r).name = r.name := by
  unfold withRecomputedEnd
  cases r.conversation.getLast? <;> rfl

/-- C2 amended: only the original `processDatabase` row body
(`src/cursor2md.go` lines 159-162) defaults an empty payload name to the
store key — its behaviour on an empty-named record is exactly its
behaviour on the record renamed to the key.  The latest revision's
`listSessions` (lines 812-830) and `exportSessions` (lines 966-988) do no
such defaulting: a surviving record with empty payload name yields a
session/export item whose title is empty, not the store key. -/
theorem c2_amended_title_default :
    (∀ (key : GoStr) (r : ChatRecord), r.name = [] →
      processDatabaseEntry key (.record r)
        = processDatabaseEntry key (.record { r with name := key })) ∧
    (∀ (key : GoStr) (r : ChatRecord) (s : SessionInfo), r.name = [] →
      sessionFromEntry key (.record r) = some s → s.title = []) ∧
    (∀ (c : Config) (key : GoStr) (r : ChatRecord) (e : ExportedSession),
      r.name = [] → exportEntry c key (.record r) = some e → e.title = []) := by
  refine ⟨?_, ?_, ?_⟩
  · intro key r hname
    unfold processDatabaseEntry
    simp only [decodeRecord, RawValue.isEmptyArrayLit, hname]
    by_cases hkey : key = ([] : GoStr)
    · subst hkey
      simp [hname]
    · simp [hname, hkey]
  · intro key r s hname hsome
    unfold sessionFromEntry at hsome
    split at hsome
    · exact absurd hsome (by simp)
    · simp only [decodeRecord] at hsome
      split at hsome
      · exact absurd hsome (by simp)
      · cases hsome
        simp [withRecomputedEnd_name, hname]
  · intro c key r e hname hsome
    unfold exportEntry at hsome
    split at hsome
    · exact absurd hsome (by simp)
    · simp only [decodeRecord] at hsome
      split at hsome
      · exact absurd hsome (by simp)
      · split at hsome
        · exact absurd hsome (by simp)
        · cases hsome
          simp [withRecomputedEnd_name, hname]

/-- C2 witness: `c2_amended_title_default` part 2 instantiated on the
concrete empty-named entry. -/
theorem c2_amended_title_default_witness :
    emptyNameRecord.name = [] ∧
    ({ hash := gs "abc", title := [], startTime := 2, endTime := 5 }
        : SessionInfo).title = [] :=
  ⟨by decide,
   c2_amended_title_default.2.1 (gs "composerData:abc") emptyNameRecord
     { hash := gs "abc", title := [], startTime := 2, endTime := 5 }
     (by decide) (by decide)⟩

/-! ## C3 — ordering of the `ls` listing. -/

/-- A store whose two surviving sessions arrive in descending start-time
scan order. -/
def c3store : Store :=
  [ (gs "composerData:aa", .record (mkRecord (gs "x") [mkUserMsg (gs "hi") 9000] 7000)),
    (gs "composerData:bb", .record (mkRecord (gs "y") [mkUserMsg (gs "yo") 3000] 1000)) ]

/-- C3 counterexample: the machine-readable (`-json`) listing of
`c3store` reports the surviving sessions in scan order `[7, 1]`, not
ascending by start time — the `sort.Slice` call of `listSessions` (lines
866-868) runs only after the JSON branch (lines 833-845) has returned.
The claim that both output modes are sorted ascending is false. -/
theorem c3_counterexample :
    ¬ List.Sorted sessionStartLE (listSessionsJson c3store).sessions := by
  decide

/-- C3 amended: the text-table mode lists the surviving sessions sorted
ascending by start time with the trailing count equal to the number of
rows, and the `-json` mode reports the same surviving sessions with a
correct `total` — but in scan order, unsorted. -/
theorem c3_amended_listing_order (store : Store) :
    List.Sorted sessionStartLE (listSessionsTable store).1 ∧
    ((listSessionsTable store).1).Perm (collectSessions store) ∧
    (listSessionsTable store).2 = (listSessionsTable store).1.length ∧
    (listSessionsJson store).sessions = collectSessions store ∧
    (listSessionsJson store).total = (listSessionsJson store).sessions.length := by
  refine ⟨?_, ?_, rfl, rfl, rfl⟩
  · exact List.sorted_insertionSort sessionStartLE _
  · exact List.perm_insertionSort sessionStartLE _

/-! ## C4 — `endedAtMillis` is recomputed before rendering/filtering. -/

/-- C4: whenever the renderer or the time filter reads an end time on a
Conversation with turns, the payload's `endedAt` is immaterial (both
functions give the same result for every stored `endedAt` value), the
value actually used is the last turn's `clientEndTime`, and Conversations
without turns are rejected by both validity filters before any rendering
or filtering decision can read an end time. -/
theorem c4_endedAt_recomputed :
    (∀ (r : ChatRecord) (e : Int), r.conversation ≠ [] →
      convertToMarkdown { r with endedAt := e } = convertToMarkdown r ∧
      ∀ c : Config, c.isInTimeRange { r with endedAt := e } = c.isInTimeRange r) ∧
    (∀ (r : ChatRecord) (last : Message),
      r.conversation.getLast? = some last →
      (withRecomputedEnd r).endedAt = last.timingInfo.clientEndTime ∧
      convertToMarkdown r = convertToMarkdown (withRecomputedEnd r) ∧
      ∀ c : Config, c.isInTimeRange r = c.isInTimeRange (withRecomputedEnd r)) ∧
    (∀ r : ChatRecord, r.conversation = [] →
      hasValidContent r = false ∧ hasValidContentV1 r = false) := by
  refine ⟨?_, ?_, ?_⟩
  · intro r e hconv
    rcases hl : r.conversation.getLast? with _ | last
    · exact absurd (List.getLast?_eq_none_iff.mp hl) hconv
    · constructor
      · unfold convertToMarkdown
        simp [hl]
      · intro c
        unfold Config.isInTimeRange
        simp [hl]
  · intro r last hl
    refine ⟨?_, ?_, ?_⟩
    · unfold withRecomputedEnd
      rw [hl]
    · unfold convertToMarkdown withRecomputedEnd
      simp [hl]
    · intro c
      unfold Config.isInTimeRange withRecomputedEnd
      simp [hl]
  · intro r hconv
    unfold hasValidContent hasValidContentV1
    rw [hconv]
    simp

/-- C4 witness: `c4_endedAt_recomputed` instantiated on a concrete
one-turn record with a planted payload end time. -/
theorem c4_endedAt_recomputed_witness :
    (mkRecord (gs "w") [mkUserMsg (gs "hi") 9000] 7000).conversation ≠ [] ∧
    convertToMarkdown
        { mkRecord (gs "w") [mkUserMsg (gs "hi") 9000] 7000 with endedAt := 1234 }
      = convertToMarkdown (mkRecord (gs "w") [mkUserMsg (gs "hi") 9000] 7000) :=
  ⟨by decide,
   (c4_endedAt_recomputed.1 (mkRecord (gs "w") [mkUserMsg (gs "hi") 9000] 7000)
     1234 (by decide)).1⟩

/-! ## C5 — the `"[]"` / `inlineDiffsData` sentinels never surface. -/

/-- C5: a row whose value is the literal `"[]"` or whose key is literally
`inlineDiffsData` contributes nothing to the listing scan and nothing to
the export scan; moreover the export write phase cannot resurrect such a
row: its re-fetch key `"composerData:" + hash` can never equal the key
`inlineDiffsData`, and if the re-fetched value is the `"[]"` literal the
decode fails and no document is written. -/
theorem c5_sentinels_never_surface :
    (∀ (key : GoStr) (v : RawValue) (c : Config),
      v.isEmptyArrayLit = true ∨ key = gs "inlineDiffsData" →
      sessionFromEntry key v = none ∧ exportEntry c key v = none) ∧
    (∀ h : GoStr, gs "composerData:" ++ h ≠ gs "inlineDiffsData") ∧
    (∀ (c : Config) (store : Store) (total : Nat) (writeOk : GoStr → Bool)
        (i : Nat) (s : ExportedSession) (fs : FS),
      storeLookup store (gs "composerData:" ++ s.hash) = some RawValue.emptyArrayLit →
      exportWriteItem c store total writeOk i s fs = (s, fs)) := by
  refine ⟨?_, ?_, ?_⟩
  · intro key v c h
    constructor
    · unfold sessionFromEntry
      simp [h]
    · unfold exportEntry
      simp [h]
  · intro h heq
    have : (gs "composerData:" ++ h).head? = (gs "inlineDiffsData").head? :=
      congrArg List.head? heq
    simp [gs] at this
  · intro c store total writeOk i s fs hlk
    unfold exportWriteItem
    simp only [hlk, decodeRecord]

/-- C5 witness: `c5_sentinels_never_surface` applied to the literal
`inlineDiffsData` row and to a store whose re-fetched value is `"[]"`. -/
theorem c5_sentinels_never_surface_witness :
    ((RawValue.emptyArrayLit.isEmptyArrayLit = true ∨
        gs "inlineDiffsData" = gs "inlineDiffsData") ∧
      sessionFromEntry (gs "inlineDiffsData") RawValue.emptyArrayLit = none) ∧
    exportWriteItem plainConfig [(gs "composerData:zz", RawValue.emptyArrayLit)]
        1 (fun _ => true) 0
        { hash := gs "zz", title := gs "t", outputPath := [],
          startTime := 0, endTime := 0 } []
      = ({ hash := gs "zz", title := gs "t", outputPath := [],
           startTime := 0, endTime := 0 }, []) :=
  ⟨⟨by decide,
    (c5_sentinels_never_surface.1 (gs "inlineDiffsData") RawValue.emptyArrayLit
      plainConfig (by decide)).1⟩,
   c5_sentinels_never_surface.2.2 plainConfig
     [(gs "composerData:zz", RawValue.emptyArrayLit)] 1 (fun _ => true) 0
     { hash := gs "zz", title := gs "t", outputPath := [],
       startTime := 0, endTime := 0 } [] (by decide)⟩

/-! ## C6 — end-less Conversations and inclusive bounds. -/

/-- C6: under the `HasTimeFilter` consistency established by `main`
(lines 1496-1497), a Conversation whose recomputed end time is `0` is
never rejected by the `endAfter`/`endBefore` bounds: the filter rejects
it exactly when a set start bound places its start time strictly outside,
and a start time exactly equal to every set start bound passes. -/
theorem c6_endless_filter (c : Config) (r : ChatRecord)
    (hfilter : c.hasTimeFilter =
      (c.startAfter.isSome || c.startBefore.isSome ||
        c.endAfter.isSome || c.endBefore.isSome))
    (hend : (withRecomputedEnd r).endedAt = 0) :
    (c.isInTimeRange r = false ↔
      ((∃ t, c.startAfter = some t ∧ unixSec r.createdAt < t) ∨
       (∃ t, c.startBefore = some t ∧ t < unixSec r.createdAt))) ∧
    ((c.startAfter = none ∨ c.startAfter = some (unixSec r.createdAt)) →
     (c.startBefore = none ∨ c.startBefore = some (unixSec r.createdAt)) →
     c.isInTimeRange r = true) := by
  have hint : (match r.conversation.getLast? with
      | some last => last.timingInfo.clientEndTime
      | none => r.endedAt) = 0 := by
    unfold withRecomputedEnd at hend
    rcases hl : r.conversation.getLast? with _ | last <;> rw [hl] at hend <;>
      simp_all
  constructor
  · unfold Config.isInTimeRange
    rw [hint, hfilter]
    rcases c.startAfter with _ | sa <;> rcases c.startBefore with _ | sb <;>
      rcases c.endAfter with _ | ea <;> rcases c.endBefore with _ | eb <;>
      simp [boundSet] <;> omega
  · intro hsa hsb
    unfold Config.isInTimeRange
    rw [hint, hfilter]
    rcases hsa with hsa | hsa <;> rcases hsb with hsb | hsb <;>
      rw [hsa, hsb] <;>
      rcases c.endAfter with _ | ea <;> rcases c.endBefore with _ | eb <;>
      simp [boundSet]

/-- C6 witness: a record starting exactly on both set start bounds, with
no resolved end time, passes a filter that also sets both end bounds. -/
theorem c6_endless_filter_witness :
    let c : Config :=
      { dbPath := [], outputDir := [], startAfter := some 5,
        startBefore := some 5, endAfter := some 100, endBefore := some 200,
        hasTimeFilter := true, jsonOutput := false, sortDesc := true,
        byName := false }
    let r : ChatRecord := mkRecord (gs "w") [mkUserMsg (gs "hi") 0] 5000
    c.isInTimeRange r = true :=
  (c6_endless_filter _ _ (by decide) (by decide)).2 (by decide) (by decide)

/-! ## C7 — by-sequence numbering. -/

/-- C7: for a batch of `total` items, the by-sequence file name of the
item at zero-based sorted position `i < total` carries the numeric
prefix `i + 1`, zero-padded to exactly the digit count of `total`; the
prefix is computed identically for ascending and descending sorts, and
over all positions the prefix values are exactly `1, ..., total` with no
duplicates (`List.range' 1 total`). -/
theorem c7_numbered_names (total i : Nat) (descending : Bool) (name : GoStr)
    (hi : i < total) :
    generateNumberedFileName total i descending name
      = digitsStr (sprintfPad0 (decDigits total).length (i + 1)) ++ gs "-"
        ++ replaceUnsafe (if trimSpace name = [] then gs "untitled" else name)
        ++ gs ".md" ∧
    (sprintfPad0 (decDigits total).length (i + 1)).length
      = (decDigits total).length ∧
    ofDigits (sprintfPad0 (decDigits total).length (i + 1)) = i + 1 ∧
    generateNumberedFileName total i true name
      = generateNumberedFileName total i false name ∧
    (List.range total).map
        (fun j => ofDigits (sprintfPad0 (decDigits total).length (j + 1)))
      = List.range' 1 total := by
  refine ⟨?_, ?_, ?_, ?_, ?_⟩
  · unfold generateNumberedFileName
    cases descending <;> rfl
  · exact sprintfPad0_length _ _ (decDigits_length_mono total (i + 1) hi)
  · exact sprintfPad0_value _ _
  · rfl
  · rw [List.range'_eq_map_range]
    apply List.map_congr_left
    intro j hj
    rw [sprintfPad0_value]
    omega

/-- C7 witness: `c7_numbered_names` at `total = 12`, `i = 3`. -/
theorem c7_numbered_names_witness :
    (3 < 12) ∧
    generateNumberedFileName 12 3 true (gs "a:b")
      = generateNumberedFileName 12 3 false (gs "a:b") :=
  ⟨by decide, (c7_numbered_names 12 3 true (gs "a:b") (by decide)).2.2.2.1⟩

/-! ## C8 — title sanitisation and the `untitled` fallback. -/

/-- The nine-branch replacer chain is exactly membership in the nine
reserved characters. -/
theorem replaceUnsafeChar_eq (c : Char) :
    replaceUnsafeChar c
      = if c ∈ ['<', '>', ':', '\"', '/', '\\', '|', '?', '*'] then '_' else c := by
  unfold replaceUnsafeChar
  split_ifs with h1 h2 h3 h4 h5 h6 h7 h8 h9 <;> simp_all

/-- Whitespace is untouched by the sanitiser. -/
theorem replaceUnsafe_of_space {s : GoStr} (h : ∀ c ∈ s, isGoSpace c = true) :
    replaceUnsafe s = s := by
  unfold replaceUnsafe
  conv_rhs => rw [← List.map_id s]
  apply List.map_congr_left
  intro c hc
  rw [replaceUnsafeChar_eq, if_neg, id]
  intro hmem
  have hsp := h c hc
  simp only [List.mem_cons, List.not_mem_nil, or_false] at hmem
  rcases hmem with rfl | rfl | rfl | rfl | rfl | rfl | rfl | rfl | rfl <;>
    exact absurd hsp (by decide)

/-- C8: the sanitiser replaces every occurrence of each of the nine
characters `< > : " / \ | ? *` with `'_'` and leaves every other
character (hence the length) unchanged, and a title that is empty or
whitespace-only yields the file name `untitled.md` in by-title mode and
the `-untitled.md` suffix after the numeric prefix in by-sequence mode. -/
theorem c8_sanitization (name : GoStr) :
    replaceUnsafe name
      = name.map (fun c =>
          if c ∈ ['<', '>', ':', '\"', '/', '\\', '|', '?', '*'] then '_' else c) ∧
    (replaceUnsafe name).length = name.length ∧
    ((∀ c ∈ name, isGoSpace c = true) →
      byTitleFileName name = gs "untitled.md" ∧
      ∀ (total i : Nat) (descending : Bool),
        generateNumberedFileName total i descending name
          = digitsStr (sprintfPad0 (decDigits total).length (i + 1))
            ++ gs "-untitled.md") := by
  refine ⟨?_, ?_, ?_⟩
  · unfold replaceUnsafe
    exact List.map_congr_left (fun c _ => replaceUnsafeChar_eq c)
  · unfold replaceUnsafe
    exact List.length_map _ _
  · intro hsp
    have htrim : trimSpace name = [] := trimSpace_all_space hsp
    constructor
    · have hcat : (gs "untitled" ++ gs ".md" : GoStr) = gs "untitled.md" := by
        decide
      unfold byTitleFileName
      rw [replaceUnsafe_of_space hsp]
      simp [htrim, hcat]
    · intro total i descending
      have hrepl : replaceUnsafe (gs "untitled") = gs "untitled" := by decide
      have htail : (gs "-" ++ (gs "untitled" ++ gs ".md") : GoStr)
          = gs "-untitled.md" := by decide
      unfold generateNumberedFileName
      cases descending <;>
        simp [htrim, hrepl, List.append_assoc, htail]

/-- C8 witness: `c8_sanitization` on the whitespace-only title `"  "`. -/
theorem c8_sanitization_witness :
    (∀ c ∈ gs "  ", isGoSpace c = true) ∧
    byTitleFileName (gs "  ") = gs "untitled.md" :=
  ⟨by decide, ((c8_sanitization (gs "  ")).2.2 (by decide)).1⟩

/-! ## C9 — by-title collision fallback. -/

/-- The sanitised-with-fallback stem used by the by-title branch of the
`exportSessions` write loop. -/
def byTitleSafeName (record : ChatRecord) : GoStr :=
  if trimSpace (replaceUnsafe record.name) = [] then gs "untitled"
  else replaceUnsafe record.name

/-- The primary by-title target path `<outputDir>/<stem>.md`. -/
def byTitleBasePath (c : Config) (record : ChatRecord) : GoStr :=
  joinPath c.outputDir (byTitleSafeName record ++ gs ".md")

/-- The collision fallback path
`<outputDir>/<stem>-<YYYYMMDD-HHMMSS of the start time>.md`. -/
def byTitleCollidePath (c : Config) (record : ChatRecord) (startSec : Int) : GoStr :=
  joinPath c.outputDir
    (byTitleSafeName record ++ gs "-" ++ formatCompact startSec ++ gs ".md")

theorem padNum_length_pos (w : Nat) (n : Int) : 0 < (padNum w n).length := by
  unfold padNum digitsStr sprintfPad0
  rw [List.length_map, List.length_append]
  have := decDigits_length_pos n.natAbs
  omega

theorem formatCompact_length_pos (sec : Int) : 0 < (formatCompact sec).length := by
  unfold formatCompact
  rcases timeParts sec with ⟨y, mo, d, h, mi, s⟩
  simp only [List.length_append]
  have := padNum_length_pos 4 y
  omega

/-- Writing one path leaves every other path's content unchanged. -/
theorem FS.lookup_write_ne (fs : FS) (p q content : GoStr) (hne : p ≠ q) :
    (fs.write p content).lookup q = fs.lookup q := by
  unfold FS.write FS.lookup
  congr 1
  rw [List.find?_cons_of_neg]
  simp [hne]

/-- C9: in the by-title batch write, when the primary target path already
exists, the item is written to the path with `-` plus the session start
time formatted `YYYYMMDD-HHMMSS` inserted before `.md`; that path differs
from the primary target, and whatever the directory held at the primary
target is untouched by the write. -/
theorem c9_collision_fallback (c : Config) (store : Store) (total : Nat)
    (writeOk : GoStr → Bool) (i : Nat) (session : ExportedSession) (fs : FS)
    (record : ChatRecord)
    (hbn : c.byName = false)
    (hlk : storeLookup store (gs "composerData:" ++ session.hash)
      = some (.record record))
    (hex : (fs.lookup (byTitleBasePath c record)).isSome = true)
    (hwr : writeOk (byTitleCollidePath c record session.startTime) = true) :
    exportWriteItem c store total writeOk i session fs
      = ({ session with
            outputPath := byTitleCollidePath c record session.startTime },
         fs.write (byTitleCollidePath c record session.startTime)
           (convertToMarkdown record)) ∧
    byTitleCollidePath c record session.startTime ≠ byTitleBasePath c record ∧
    (fs.write (byTitleCollidePath c record session.startTime)
        (convertToMarkdown record)).lookup (byTitleBasePath c record)
      = fs.lookup (byTitleBasePath c record) := by
  have hne : byTitleCollidePath c record session.startTime
      ≠ byTitleBasePath c record := by
    intro heq
    have hlen := congrArg List.length heq
    simp only [byTitleCollidePath, byTitleBasePath, joinPath,
      List.length_append] at hlen
    have h1 := formatCompact_length_pos session.startTime
    have h2 : (gs "-").length = 1 := by decide
    rw [h2] at hlen
    omega
  refine ⟨?_, hne, FS.lookup_write_ne _ _ _ _ hne⟩
  unfold byTitleBasePath byTitleSafeName at hex
  unfold byTitleCollidePath byTitleSafeName at hwr
  unfold exportWriteItem
  simp only [hlk, decodeRecord, hbn, Bool.false_eq_true, if_false, hex,
    if_true, hwr]
  simp [byTitleCollidePath, byTitleSafeName]

/-- Record fixture for the collision witness. -/
def c9record : ChatRecord := mkRecord (gs "x") [mkUserMsg (gs "hi") 9000] 7000

/-- Session fixture matching `c9record` under key `composerData:aa`. -/
def c9session : ExportedSession :=
  { hash := gs "aa", title := gs "x", outputPath := [],
    startTime := 7, endTime := 9 }

/-- Store fixture holding `c9record`. -/
def c9store : Store := [(gs "composerData:aa", .record c9record)]

/-- A directory that already contains the primary by-title target. -/
def c9fs : FS := [(byTitleBasePath plainConfig c9record, gs "old")]

/-- C9 witness: `c9_collision_fallback` on the concrete colliding item. -/
theorem c9_collision_fallback_witness :
    (c9fs.lookup (byTitleBasePath plainConfig c9record)).isSome = true ∧
    byTitleCollidePath plainConfig c9record c9session.startTime
      ≠ byTitleBasePath plainConfig c9record :=
  ⟨by decide,
   (c9_collision_fallback plainConfig c9store 1 (fun _ => true) 0 c9session
     c9fs c9record (by decide) (by decide) (by decide) rfl).2.1⟩

/-! ## C10 — failed writes in the batch report. -/

theorem joinPath_ne_nil (dir file : GoStr) : joinPath dir file ≠ [] := by
  intro h
  have hlen := congrArg List.length h
  have h1 : (gs "/").length = 1 := by decide
  simp only [joinPath, List.length_append, h1, List.length_nil] at hlen
  omega

/-- A success/failure dichotomy for the final write-or-`continue` step. -/
theorem ifWrite_cases (writeOk : GoStr → Bool) (session : ExportedSession)
    (fs : FS) (M content : GoStr) (hne : M ≠ []) :
    (if writeOk M = true then
        ({ session with outputPath := M }, fs.write M content)
      else (session, fs)) = (session, fs) ∨
    ∃ p ct,
      (if writeOk M = true then
          ({ session with outputPath := M }, fs.write M content)
        else (session, fs)) = ({ session with outputPath := p }, fs.write p ct) ∧
      writeOk p = true ∧ p ≠ [] := by
  by_cases hw : writeOk M = true
  · exact Or.inr ⟨M, content, by simp [hw], hw, hne⟩
  · exact Or.inl (by simp [hw])

/-- Each write-loop iteration either leaves the item untouched (any
`continue`) or fills `outputPath` with the non-empty path whose write
succeeded, leaving every other field alone. -/
theorem exportWriteItem_cases (c : Config) (store : Store) (total : Nat)
    (writeOk : GoStr → Bool) (i : Nat) (session : ExportedSession) (fs : FS) :
    exportWriteItem c store total writeOk i session fs = (session, fs) ∨
    ∃ p content,
      exportWriteItem c store total writeOk i session fs
        = ({ session with outputPath := p }, fs.write p content) ∧
      writeOk p = true ∧ p ≠ [] := by
  rcases hl : storeLookup store (gs "composerData:" ++ session.hash) with _ | v
  · left
    simp [exportWriteItem, hl]
  · rcases hd : decodeRecord v with _ | record
    · left
      simp [exportWriteItem, hl, hd]
    · unfold exportWriteItem
      simp only [hl, hd]
      refine ifWrite_cases writeOk session fs _ _ ?_
      repeat' split
      all_goals exact joinPath_ne_nil _ _

/-- When every write fails, the write loop changes nothing. -/
theorem exportWriteGo_all_fail (c : Config) (store : Store) (total : Nat)
    (writeOk : GoStr → Bool) (hfail : ∀ p, writeOk p = false) :
    ∀ (l : List ExportedSession) (i : Nat) (fs : FS),
      exportWriteGo c store total writeOk i l fs = (l, fs) := by
  intro l
  induction l with
  | nil => intro i fs; rfl
  | cons s rest ih =>
    intro i fs
    have hitem : exportWriteItem c store total writeOk i s fs = (s, fs) := by
      rcases hl : storeLookup store (gs "composerData:" ++ s.hash) with _ | v
      · simp [exportWriteItem, hl]
      · rcases hd : decodeRecord v with _ | record
        · simp [exportWriteItem, hl, hd]
        · simp [exportWriteItem, hl, hd, hfail]
    simp [exportWriteGo, hitem, ih]

/-- Length preservation and the per-item report invariant of the write
loop, for input items whose `outputPath` starts empty. -/
theorem exportWriteGo_spec (c : Config) (store : Store) (total : Nat)
    (writeOk : GoStr → Bool) :
    ∀ (l : List ExportedSession) (i : Nat) (fs : FS),
      (∀ s ∈ l, s.outputPath = []) →
      (exportWriteGo c store total writeOk i l fs).1.length = l.length ∧
      List.Forall₂ (fun a b : ExportedSession =>
          b.hash = a.hash ∧ b.title = a.title ∧ b.startTime = a.startTime ∧
          b.endTime = a.endTime ∧
          (b.outputPath = [] ∨ (writeOk b.outputPath = true ∧ b.outputPath ≠ [])))
        l (exportWriteGo c store total writeOk i l fs).1 := by
  intro l
  induction l with
  | nil => intro i fs _; exact ⟨rfl, List.Forall₂.nil⟩
  | cons s rest ih =>
    intro i fs hout
    have hs : s.outputPath = [] := hout s (List.mem_cons_self s rest)
    have hrest : ∀ x ∈ rest, x.outputPath = [] :=
      fun x hx => hout x (List.mem_cons_of_mem s hx)
    rcases exportWriteItem_cases c store total writeOk i s fs with
      hitem | ⟨p, content, hitem, hwk, hp⟩
    · have hgo : exportWriteGo c store total writeOk i (s :: rest) fs
          = ((exportWriteGo c store total writeOk (i + 1) rest fs).1.cons s,
             (exportWriteGo c store total writeOk (i + 1) rest fs).2) := by
        simp [exportWriteGo, hitem]
      rcases ih (i + 1) fs hrest with ⟨hlen, hrel⟩
      rw [hgo]
      exact ⟨by simpa using hlen,
        List.Forall₂.cons ⟨rfl, rfl, rfl, rfl, Or.inl hs⟩ hrel⟩
    · have hgo : exportWriteGo c store total writeOk i (s :: rest) fs
          = ((exportWriteGo c store total writeOk (i + 1) rest
                (fs.write p content)).1.cons { s with outputPath := p },
             (exportWriteGo c store total writeOk (i + 1) rest
                (fs.write p content)).2) := by
        simp [exportWriteGo, hitem]
      rcases ih (i + 1) (fs.write p content) hrest with ⟨hlen, hrel⟩
      rw [hgo]
      exact ⟨by simpa using hlen,
        List.Forall₂.cons ⟨rfl, rfl, rfl, rfl, Or.inr ⟨hwk, hp⟩⟩ hrel⟩

/-- Surviving export items always start with an empty `outputPath`. -/
theorem exportEntry_outputPath (c : Config) (key : GoStr) (v : RawValue)
    (e : ExportedSession) (h : exportEntry c key v = some e) :
    e.outputPath = [] := by
  unfold exportEntry at h
  split at h
  · exact absurd h (by simp)
  · split at h
    · exact absurd h (by simp)
    · split at h
      · exact absurd h (by simp)
      · dsimp only at h
        split at h
        · exact absurd h (by simp)
        · cases h
          rfl

theorem collectExportSessions_outputPath (c : Config) (store : Store) :
    ∀ s ∈ collectExportSessions c store, s.outputPath = [] := by
  intro s hs
  unfold collectExportSessions at hs
  rcases List.mem_filterMap.mp hs with ⟨row, _, hrow⟩
  exact exportEntry_outputPath c row.1 row.2 s hrow

/-- C10: the batch export report keeps every surviving item whether or not
its individual write succeeded — the reported `total` counts them all, the
overall `success` flag stays `true`, a failed item keeps its identity with
an empty `outputPath`, and an item carries a non-empty `outputPath` only
when the write to that very path succeeded.  With every write failing,
the exported list is exactly the sorted catalog, all with empty paths. -/
theorem c10_partial_write_reporting (c : Config) (store : Store)
    (writeOk : GoStr → Bool) (fs0 : FS) :
    (exportSessionsRun c store writeOk fs0).1.success = true ∧
    (exportSessionsRun c store writeOk fs0).1.total
      = (collectExportSessions c store).length ∧
    (exportSessionsRun c store writeOk fs0).1.exported.length
      = (collectExportSessions c store).length ∧
    List.Forall₂ (fun a b : ExportedSession =>
        b.hash = a.hash ∧ b.title = a.title ∧ b.startTime = a.startTime ∧
        b.endTime = a.endTime ∧
        (b.outputPath = [] ∨ (writeOk b.outputPath = true ∧ b.outputPath ≠ [])))
      (sortExportedSessions (collectExportSessions c store) c.sortDesc)
      (exportSessionsRun c store writeOk fs0).1.exported ∧
    ((∀ p, writeOk p = false) →
      (exportSessionsRun c store writeOk fs0).1.exported
          = sortExportedSessions (collectExportSessions c store) c.sortDesc ∧
      ∀ b ∈ (exportSessionsRun c store writeOk fs0).1.exported,
        b.outputPath = []) := by
  have hsortnil : ∀ s ∈ sortExportedSessions (collectExportSessions c store)
      c.sortDesc, s.outputPath = [] := by
    intro s hs
    exact collectExportSessions_outputPath c store s
      ((List.mem_insertionSort _).mp hs)
  have hgo := exportWriteGo_spec c store
    (sortExportedSessions (collectExportSessions c store) c.sortDesc).length
    writeOk (sortExportedSessions (collectExportSessions c store) c.sortDesc)
    0 fs0 hsortnil
  have hexp : (exportSessionsRun c store writeOk fs0).1.exported
      = (exportWriteGo c store
          (sortExportedSessions (collectExportSessions c store) c.sortDesc).length
          writeOk 0
          (sortExportedSessions (collectExportSessions c store) c.sortDesc)
          fs0).1 := rfl
  have hsortlen : (sortExportedSessions (collectExportSessions c store)
      c.sortDesc).length = (collectExportSessions c store).length :=
    List.length_insertionSort _ _
  refine ⟨rfl, ?_, ?_, ?_, ?_⟩
  · show (exportSessionsRun c store writeOk fs0).1.exported.length = _
    rw [hexp, hgo.1, hsortlen]
  · rw [hexp, hgo.1, hsortlen]
  · rw [hexp]
    exact hgo.2
  · intro hfail
    have hall := exportWriteGo_all_fail c store
      (sortExportedSessions (collectExportSessions c store) c.sortDesc).length
      writeOk hfail
      (sortExportedSessions (collectExportSessions c store) c.sortDesc) 0 fs0
    constructor
    · rw [hexp, hall]
    · intro b hb
      rw [hexp, hall] at hb
      exact hsortnil b hb

/-- C10 witness: `c10_partial_write_reporting` on a two-row store with
every write failing — both items stay in the report with empty paths. -/
theorem c10_partial_write_reporting_witness :
    (exportSessionsRun plainConfig c3store (fun _ => false) []).1.exported
        = sortExportedSessions (collectExportSessions plainConfig c3store)
            plainConfig.sortDesc ∧
    ∀ b ∈ (exportSessionsRun plainConfig c3store (fun _ => false) []).1.exported,
      b.outputPath = [] :=
  (c10_partial_write_reporting plainConfig c3store (fun _ => false) []).2.2.2.2
    (fun _ => rfl)
